import Mathlib

/-!
Verification of the xbase DBF library (tsingsun/xbase): a shallow embedding
of the field codec, header arithmetic and cursor engine from the Go source,
with theorems checking the natural-language specification's claims.

Bytes are modelled as natural numbers (values 0..255), Go strings and byte
slices as lists of bytes, machine integers as Nat/Int with explicit
wrap-around where the source relies on conversion or overflow.  Go float64
values are modelled as exact rationals: IEEE-754 rounding is outside the
scope of the properties proved here.
-/

namespace XBaseSpec

/-- An encoder or decoder derived from a code page
(golang.org/x/text encoding.Encoder/Decoder): a partial byte-string
transformer; `none` models a translation error. -/
abbrev Translator := List Nat → Option (List Nat)

/-- Errors surfaced by the library.  Go errors are modelled by which sentinel
or error construction site produced them; the textual wrapping that
`wrapFieldError` adds ("xbase: op: field n ...") is string formatting and is
not modelled, only which inner error is stored. -/
inductive XErr where
  | bof
  | eof
  | typeMismatch
  | valueOverflow
  | fieldOutOfRange
  | alreadyAdding
  | structureUndefined
  | notDbfFile
  | unsupportedType
  | parseError
  | encodeError
  | ioError
  deriving DecidableEq, Repr

/-! ### String utilities (field.go: padRight, padLeft, isASCII; strings pkg) -/

/-- Source `padRight`: right-pad with spaces to `width` (no-op when already
at least that long). -/
def padRight (s : List Nat) (width : Nat) : List Nat :=
  if width ≤ s.length then s else s ++ List.replicate (width - s.length) 32

/-- Source `padLeft`: left-pad with spaces to `width`. -/
def padLeft (s : List Nat) (width : Nat) : List Nat :=
  if width ≤ s.length then s else List.replicate (width - s.length) 32 ++ s

/-- Source `isASCII`: every byte is at most `unicode.MaxASCII` (0x7F). -/
def isASCII (s : List Nat) : Bool := s.all (fun b => b ≤ 127)

/-- ASCII whitespace recognised by Go's `strings.TrimSpace` (multi-byte
Unicode spaces never occur in the numeric buffers this is applied to). -/
def isSpaceB (b : Nat) : Bool :=
  b == 32 || b == 9 || b == 10 || b == 11 || b == 12 || b == 13

/-- `strings.TrimSpace`: drop whitespace from both ends. -/
def trimSpaceB (s : List Nat) : List Nat :=
  ((s.dropWhile isSpaceB).reverse.dropWhile isSpaceB).reverse

/-- `strings.TrimRight(s, " ")`: drop trailing space bytes. -/
def trimRightSpace (s : List Nat) : List Nat :=
  (s.reverse.dropWhile (fun b => b == 32)).reverse

/-- `strings.TrimLeft(s, " ")`: drop leading space bytes. -/
def trimLeftSpace (s : List Nat) : List Nat :=
  s.dropWhile (fun b => b == 32)

/-! ### Decimal rendering and parsing (strconv.FormatInt / ParseInt) -/

/-- Base-10 digits of `n`, least significant first, extracted with explicit
fuel so that the definition computes by kernel reduction. -/
def natDigitsLE : Nat → Nat → List Nat
  | 0, _ => []
  | fuel + 1, n => if n = 0 then [] else n % 10 :: natDigitsLE fuel (n / 10)

/-- Decimal digits of `n`, most significant first, as ASCII bytes
(`strconv` renders 0 as "0"). -/
def natDecimal (n : Nat) : List Nat :=
  if n = 0 then [48] else (natDigitsLE n n).reverse.map (fun d => d + 48)

/-- `strconv.FormatInt(v, 10)`: optional minus sign then decimal digits. -/
def formatInt (v : Int) : List Nat :=
  if v < 0 then 45 :: natDecimal v.natAbs else natDecimal v.natAbs

/-- Value of an ASCII digit byte, if it is one. -/
def digitVal (b : Nat) : Option Nat :=
  if 48 ≤ b ∧ b ≤ 57 then some (b - 48) else none

/-- Parse a run of decimal digit bytes, accumulating left to right;
fails on any non-digit. -/
def parseNatAcc : List Nat → Nat → Option Nat
  | [], acc => some acc
  | b :: rest, acc =>
    match digitVal b with
    | some d => parseNatAcc rest (acc * 10 + d)
    | none => none

/-- The digit-run part of `strconv.ParseInt`: a nonempty digit run and the
64-bit signed range check for the given sign (out-of-range parses are
errors, as the callers treat them). -/
def parseInt64Digits (neg : Bool) (ds : List Nat) : Option Int :=
  match ds with
  | [] => none
  | _ =>
    match parseNatAcc ds 0 with
    | none => none
    | some n =>
      if neg then
        if n ≤ 2 ^ 63 then some (-(n : Int)) else none
      else
        if n ≤ 2 ^ 63 - 1 then some (n : Int) else none

/-- `strconv.ParseInt(s, 10, 64)`: strip an optional sign, then parse the
digit run. -/
def parseInt64 (s : List Nat) : Option Int :=
  match s with
  | [] => none
  | b :: rest =>
    if b = 45 then parseInt64Digits true rest
    else if b = 43 then parseInt64Digits false rest
    else parseInt64Digits false (b :: rest)

/-- `strconv.ParseFloat(s, 64)` restricted to the plain decimal forms the
codec produces (optional sign, digits, optional fraction); the value is kept
as an exact rational, exponent/hex/inf forms and binary rounding are not
modelled. -/
def parseFloatQ (s : List Nat) : Option ℚ :=
  match s with
  | [] => none
  | _ =>
    let signDigits : Bool × List Nat :=
      match s with
      | 45 :: rest => (true, rest)
      | 43 :: rest => (false, rest)
      | _ => (false, s)
    let ds := signDigits.2
    match ds.findIdx? (fun b => b == 46) with
    | none =>
      match ds with
      | [] => none
      | _ => (parseNatAcc ds 0).map fun n =>
          if signDigits.1 then -(n : ℚ) else (n : ℚ)
    | some i =>
      let ip := ds.take i
      let fp := ds.drop (i + 1)
      if (fp.findIdx? (fun b => b == 46)).isSome then none
      else if ip = [] ∧ fp = [] then none
      else
        match (if ip = [] then some 0 else parseNatAcc ip 0),
              (if fp = [] then some 0 else parseNatAcc fp 0) with
        | some n, some m =>
          let q : ℚ := (n : ℚ) + (m : ℚ) / (10 : ℚ) ^ fp.length
          some (if signDigits.1 then -q else q)
        | _, _ => none

/-! ### Dates (time.Time restricted to UTC-midnight calendar dates) -/

/-- A Go `time.Time` as the library uses it: a proleptic Gregorian calendar
date at UTC midnight.  The zero `time.Time` is January 1 of year 1. -/
structure GoDate where
  year : Int
  month : Nat
  day : Nat
  deriving DecidableEq, Repr

/-- The zero `time.Time`. -/
def zeroDate : GoDate := ⟨1, 1, 1⟩

/-- Gregorian leap-year rule (as Go's time package applies it). -/
def isLeap (y : Int) : Bool :=
  y % 4 = 0 && (y % 100 ≠ 0 || y % 400 = 0)

/-- Days in a month of the proleptic Gregorian calendar. -/
def daysInMonth (y : Int) (m : Nat) : Nat :=
  if m = 2 then (if isLeap y then 29 else 28)
  else if m = 4 ∨ m = 6 ∨ m = 9 ∨ m = 11 then 30
  else 31

/-- `time.Parse("20060102", s)`: exactly eight digit bytes, month 01..12,
day valid for the month. -/
def parseDate8 (s : List Nat) : Option GoDate :=
  match s with
  | [a, b, c, d, e, f, g, h] => do
    let y : Nat :=
      (← digitVal a) * 1000 + (← digitVal b) * 100 + (← digitVal c) * 10 + (← digitVal d)
    let mo : Nat := (← digitVal e) * 10 + (← digitVal f)
    let da : Nat := (← digitVal g) * 10 + (← digitVal h)
    if 1 ≤ mo ∧ mo ≤ 12 ∧ 1 ≤ da ∧ da ≤ daysInMonth (y : Int) mo then
      some ⟨(y : Nat), mo, da⟩
    else none
  | _ => none

/-- Left-pad a digit string with ASCII zeros to `width`. -/
def padLeftZero (s : List Nat) (width : Nat) : List Nat :=
  List.replicate (width - s.length) 48 ++ s

/-- `t.Format("20060102")` for dates with year 0..9999 (the only dates the
format round-trips; years outside that range are not modelled). -/
def formatDate8 (d : GoDate) : List Nat :=
  padLeftZero (natDecimal d.year.toNat) 4 ++
  padLeftZero (natDecimal d.month) 2 ++
  padLeftZero (natDecimal d.day) 2

/-! ### Field descriptor (field.go) -/

/-- Field type tag bytes. -/
def FieldType_Character : Nat := 67

/-- Numeric field type tag ('N'). -/
def FieldType_Numeric : Nat := 78

/-- Date field type tag ('D'). -/
def FieldType_Date : Nat := 68

/-- Float field type tag ('F'). -/
def FieldType_Float : Nat := 70

/-- Logical field type tag ('L'). -/
def FieldType_Logical : Nat := 76

/-- The in-memory field descriptor (struct `field`): `Name` is the 11-byte
zero-padded name, `Offset` the record-relative byte offset (uint32), `Len`
and `Dec` single bytes. -/
structure Field where
  Name : List Nat
  Typ : Nat
  Offset : Nat
  Len : Nat
  Dec : Nat
  deriving DecidableEq, Repr

namespace Field

/-- `field.buffer`: the slice `recordBuf[Offset : Offset+Len]`. -/
def buffer (f : Field) (recordBuf : List Nat) : List Nat :=
  (recordBuf.drop f.Offset).take f.Len

/-- One step of Go's `copy` into `recordBuf[Offset:Offset+Len]`: write the
source bytes at successive positions (writes past the end of the list are
dropped, as the destination slice bound caps the copy). -/
def writeBytes (dst : List Nat) (start : Nat) : List Nat → List Nat
  | [] => dst
  | b :: rest => writeBytes (dst.set start b) (start + 1) rest

/-- `field.setBuffer`: `copy(recordBuf[Offset:Offset+Len], value)`, which
copies at most `Len` bytes. -/
def setBuffer (f : Field) (recordBuf value : List Nat) : List Nat :=
  writeBytes recordBuf f.Offset (value.take f.Len)

/-- `field.checkType`: the requested type tag must equal the declared one. -/
def checkType (f : Field) (t : Nat) : Option XErr :=
  if t ≠ f.Typ then some .typeMismatch else none

/-- `field.checkLen`: the rendered value must fit the declared length. -/
def checkLen (f : Field) (value : List Nat) : Option XErr :=
  if f.Len < value.length then some XErr.valueOverflow else none

/-- `field.stringValue`: slice, trim (right for C, left for N/F), and decode
through the code page when a decoder is present and the raw bytes are not
pure ASCII. -/
def stringValue (f : Field) (recordBuf : List Nat) (dec : Option Translator) :
    Except XErr (List Nat) :=
  let s := f.buffer recordBuf
  let s :=
    if f.Typ = FieldType_Character then trimRightSpace s
    else if f.Typ = FieldType_Numeric ∨ f.Typ = FieldType_Float then trimLeftSpace s
    else s
  match dec with
  | some de =>
    if f.Typ = FieldType_Character ∧ ¬ isASCII s then
      match de s with
      | some ds => .ok ds
      | none => .error .encodeError
    else .ok s
  | none => .ok s

/-- `field.boolValue`: must be L; true iff the first byte of the slice is one
of T, t, Y, y. -/
def boolValue (f : Field) (recordBuf : List Nat) : Except XErr Bool :=
  match f.checkType FieldType_Logical with
  | some e => .error e
  | none =>
    let b := (f.buffer recordBuf).headD 0
    .ok (b == 84 || b == 116 || b == 89 || b == 121)

/-- `field.dateValue`: must be D; an all-space slice is the zero date without
error, otherwise strict YYYYMMDD parsing. -/
def dateValue (f : Field) (recordBuf : List Nat) : Except XErr GoDate :=
  match f.checkType FieldType_Date with
  | some e => .error e
  | none =>
    let s := f.buffer recordBuf
    if s.all (fun b => b == 32) then .ok zeroDate
    else
      match parseDate8 s with
      | some d => .ok d
      | none => .error .parseError

/-- `field.intValue`: must be N; trim; empty or leading dot parses as zero;
truncate at a dot at positive index; then ParseInt base 10, 64 bit. -/
def intValue (f : Field) (recordBuf : List Nat) : Except XErr Int :=
  match f.checkType FieldType_Numeric with
  | some e => .error e
  | none =>
    let s := trimSpaceB (f.buffer recordBuf)
    if s = [] ∨ s.headD 0 = 46 then .ok 0
    else
      let s :=
        match s.findIdx? (fun b => b == 46) with
        | some i => if 0 < i then s.take i else s
        | none => s
      match parseInt64 s with
      | some v => .ok v
      | none => .error .parseError

/-- `field.floatValue`: must be F; trim; empty or leading dot parses as zero;
then ParseFloat (modelled as an exact rational). -/
def floatValue (f : Field) (recordBuf : List Nat) : Except XErr ℚ :=
  match f.checkType FieldType_Float with
  | some e => .error e
  | none =>
    let s := trimSpaceB (f.buffer recordBuf)
    if s = [] ∨ s.headD 0 = 46 then .ok 0
    else
      match parseFloatQ s with
      | some v => .ok v
      | none => .error .parseError

/-- The code-page encoding step of `setStringValue`: apply the encoder when
one is installed and the value is not pure ASCII. -/
def encodeValue (enc : Option Translator) (value : List Nat) : Option (List Nat) :=
  match enc with
  | some en => if ¬ isASCII value then en value else some value
  | none => some value

/-- `field.setStringValue`: must be C; encode through the code page when
needed; the encoded value must fit the declared length; write right-space-
padded.  The unchanged buffer is returned alongside the error on failure. -/
def setStringValue (f : Field) (recordBuf value : List Nat)
    (enc : Option Translator) : List Nat × Option XErr :=
  match f.checkType FieldType_Character with
  | some e => (recordBuf, some e)
  | none =>
    match encodeValue enc value with
    | none => (recordBuf, some .encodeError)
    | some v =>
      match f.checkLen v with
      | some e => (recordBuf, some e)
      | none => (f.setBuffer recordBuf (padRight v f.Len), none)

/-- `field.setBoolValue`: must be L; write "T" or "F". -/
def setBoolValue (f : Field) (recordBuf : List Nat) (value : Bool) :
    List Nat × Option XErr :=
  match f.checkType FieldType_Logical with
  | some e => (recordBuf, some e)
  | none => (f.setBuffer recordBuf (if value then [84] else [70]), none)

/-- `field.setDateValue`: must be D; write the YYYYMMDD rendering. -/
def setDateValue (f : Field) (recordBuf : List Nat) (value : GoDate) :
    List Nat × Option XErr :=
  match f.checkType FieldType_Date with
  | some e => (recordBuf, some e)
  | none => (f.setBuffer recordBuf (formatDate8 value), none)

end Field

/-- The string `setIntValue` builds before the length check: the decimal
rendering plus "." and `dec` zero fill digits when `dec` is positive. -/
def renderInt (value : Int) (dec : Nat) : List Nat :=
  let s := formatInt value
  if 0 < dec then s ++ 46 :: List.replicate dec 48 else s

/-- Round a rational to the nearest integer, ties to even (the rounding of
`strconv.FormatFloat` at the decimal digit boundary). -/
def roundHalfEven (q : ℚ) : Int :=
  let fl : Int := ⌊q⌋
  let r : ℚ := q - (fl : ℚ)
  if r < 1 / 2 then fl
  else if 1 / 2 < r then fl + 1
  else if fl % 2 = 0 then fl else fl + 1

/-- `strconv.FormatFloat(v, 'f', dec, 64)` on the rational model: the sign,
the integer digits, and exactly `dec` fractional digits. -/
def formatRatF (q : ℚ) (dec : Nat) : List Nat :=
  let n : Int := roundHalfEven (q * (10 : ℚ) ^ dec)
  let ip : Nat := n.natAbs / 10 ^ dec
  let fp : Nat := n.natAbs % 10 ^ dec
  (if q < 0 then [45] else []) ++ natDecimal ip ++
    (if 0 < dec then 46 :: padLeftZero (natDecimal fp) dec else [])

namespace Field

/-- `field.setIntValue`: must be N; render as decimal plus decimal filler;
must fit; write left-space-padded. -/
def setIntValue (f : Field) (recordBuf : List Nat) (value : Int) :
    List Nat × Option XErr :=
  match f.checkType FieldType_Numeric with
  | some e => (recordBuf, some e)
  | none =>
    let s := renderInt value f.Dec
    match f.checkLen s with
    | some e => (recordBuf, some e)
    | none => (f.setBuffer recordBuf (padLeft s f.Len), none)

/-- `field.setFloatValue`: must be F; render with exactly `Dec` fractional
digits; must fit; write left-space-padded. -/
def setFloatValue (f : Field) (recordBuf : List Nat) (value : ℚ) :
    List Nat × Option XErr :=
  match f.checkType FieldType_Float with
  | some e => (recordBuf, some e)
  | none =>
    let s := formatRatF value f.Dec
    match f.checkLen s with
    | some e => (recordBuf, some e)
    | none => (f.setBuffer recordBuf (padLeft s f.Len), none)

end Field

/-- A dynamic Go value passed to the `setValue` dispatcher.  Each constructor
mirrors one case of the Go type switch; the numeric constructors carry the
mathematical value of the machine word (so uintN carries a value < 2^N and
intN a value in the signed N-bit range). -/
inductive GoValue where
  | vstring (s : List Nat)
  | vbool (b : Bool)
  | vint (v : Int)
  | vint8 (v : Int)
  | vint16 (v : Int)
  | vint32 (v : Int)
  | vint64 (v : Int)
  | vuint (v : Nat)
  | vuint8 (v : Nat)
  | vuint16 (v : Nat)
  | vuint32 (v : Nat)
  | vuint64 (v : Nat)
  | vfloat32 (q : ℚ)
  | vfloat64 (q : ℚ)
  | vtime (d : GoDate)
  | vother

/-- Go's `int64(v)` conversion of a `uint64` value: reinterpret the 64-bit
word as two's complement. -/
def int64OfUInt64 (v : Nat) : Int :=
  if v % 2 ^ 64 < 2 ^ 63 then ((v % 2 ^ 64 : Nat) : Int)
  else ((v % 2 ^ 64 : Nat) : Int) - 2 ^ 64

namespace Field

/-- `field.setValue`: the dynamic dispatcher.  Signed widths and the small
unsigned widths convert to int64 losslessly; `uint` and `uint64` convert by
two's-complement reinterpretation; anything else is an unsupported value. -/
def setValue (f : Field) (recordBuf : List Nat) (value : GoValue)
    (enc : Option Translator) : List Nat × Option XErr :=
  match value with
  | .vstring s => f.setStringValue recordBuf s enc
  | .vbool b => f.setBoolValue recordBuf b
  | .vint v => f.setIntValue recordBuf v
  | .vint8 v => f.setIntValue recordBuf v
  | .vint16 v => f.setIntValue recordBuf v
  | .vint32 v => f.setIntValue recordBuf v
  | .vint64 v => f.setIntValue recordBuf v
  | .vuint v => f.setIntValue recordBuf (int64OfUInt64 v)
  | .vuint8 v => f.setIntValue recordBuf (v : Int)
  | .vuint16 v => f.setIntValue recordBuf (v : Int)
  | .vuint32 v => f.setIntValue recordBuf (v : Int)
  | .vuint64 v => f.setIntValue recordBuf (int64OfUInt64 v)
  | .vfloat32 q => f.setFloatValue recordBuf q
  | .vfloat64 q => f.setFloatValue recordBuf q
  | .vtime d => f.setDateValue recordBuf d
  | .vother => (recordBuf, some .unsupportedType)

end Field

/-! ### Header (header.go) -/

/-- Little-endian bytes of a uint16 value. -/
def u16le (n : Nat) : List Nat := [n % 256, n / 256 % 256]

/-- Little-endian bytes of a uint32 value. -/
def u32le (n : Nat) : List Nat :=
  [n % 256, n / 256 % 256, n / 65536 % 256, n / 16777216 % 256]

/-- The in-memory header (struct `header`).  The reserved filler bytes are
always zero and are materialised only in the serialised form. -/
structure Header where
  DbfId : Nat
  ModYear : Nat
  ModMonth : Nat
  ModDay : Nat
  RecCount : Nat
  DataOffset : Nat
  RecSize : Nat
  CP : Nat
  deriving DecidableEq, Repr

namespace Header

/-- `header.write`: the 32-byte little-endian serialisation. -/
def write (h : Header) : List Nat :=
  [h.DbfId % 256, h.ModYear % 256, h.ModMonth % 256, h.ModDay % 256] ++
  u32le h.RecCount ++ u16le h.DataOffset ++ u16le h.RecSize ++
  List.replicate 17 0 ++ [h.CP % 256] ++ List.replicate 2 0

/-- `header.fieldCount`: `(int(DataOffset) - 32 - 1) / 32` with Go's
truncated signed division. -/
def fieldCount (h : Header) : Int :=
  Int.tdiv ((h.DataOffset : Int) - 32 - 1) 32

/-- `header.setFieldCount`: `DataOffset = uint16(count*32 + 32 + 1)`. -/
def setFieldCount (h : Header) (count : Nat) : Header :=
  { h with DataOffset := (count * 32 + 32 + 1) % 65536 }

/-- `header.setModDate`: store year-1900, month, day as bytes (Go byte
conversion keeps the low eight bits). -/
def setModDate (h : Header) (d : GoDate) : Header :=
  { h with ModYear := ((d.year - 1900) % 256).toNat,
           ModMonth := d.month % 256,
           ModDay := d.day % 256 }

end Header

/-! ### The seekable byte stream (io.ReadWriteSeeker over an os.File) -/

/-- Overwrite `data` with `bs` starting at byte position `pos`, extending the
file (with zero bytes for any seek-past-end hole) as an OS file write does. -/
def writeAt (data : List Nat) (pos : Nat) (bs : List Nat) : List Nat :=
  let d := data ++ List.replicate (pos - data.length) 0
  d.take pos ++ bs ++ d.drop (pos + bs.length)

/-- The engine's bound stream: the file contents plus the current position.
`Stat` reports `data.length`. -/
structure Stream where
  data : List Nat
  pos : Nat
  deriving DecidableEq, Repr

namespace Stream

/-- `Seek(offset, 0)`: absolute positioning; negative offsets are errors. -/
def seekTo (st : Stream) (offset : Int) : Option Stream :=
  if offset < 0 then none else some { st with pos := offset.toNat }

/-- `Seek(0, 2)`: position at end of file. -/
def seekEnd (st : Stream) : Stream := { st with pos := st.data.length }

/-- `Write(bs)`: overwrite at the current position, advancing it. -/
def write (st : Stream) (bs : List Nat) : Stream :=
  { data := writeAt st.data st.pos bs, pos := st.pos + bs.length }

/-- `Read` into a buffer of `n` bytes: at end of file the read itself
returns io.EOF (`none`); otherwise up to `n` available bytes are returned
(fewer than `n` only when the file ends first). -/
def read (st : Stream) (n : Nat) : Option (List Nat) × Stream :=
  if n = 0 then (some [], st)
  else if st.data.length ≤ st.pos then (none, st)
  else
    let k := min n (st.data.length - st.pos)
    (some ((st.data.drop st.pos).take k), { st with pos := st.pos + k })

end Stream

/-! ### The table engine (xbase.go) -/

/-- Go's int64 wrap-around for arithmetic on record numbers. -/
def wrap64 (x : Int) : Int := (x + 2 ^ 63) % 2 ^ 64 - 2 ^ 63

/-- The engine state (struct `XBase`): header, fields, bound stream, current
record buffer, sticky error, 1-based current record number (0 = none), the
adding/modified flags and the code-page translators. -/
structure XBase where
  header : Header
  fields : List Field
  stream : Stream
  buffer : List Nat
  err : Option XErr
  recordNum : Int
  isAdd : Bool
  isMod : Bool
  encoder : Option Translator
  decoder : Option Translator

namespace XBase

/-- `recCount`: the header's record count as an int64. -/
def recCount (db : XBase) : Int := (db.header.RecCount : Int)

/-- `RecCount`: the public accessor. -/
def RecCount (db : XBase) : Int := db.recCount

/-- `seekRecord`: seek to `DataOffset + RecSize·(recordNo − 1)`. -/
def seekRecord (db : XBase) (recordNo : Int) : Option XBase :=
  let offset : Int :=
    (db.header.DataOffset : Int) + (db.header.RecSize : Int) * (recordNo - 1)
  (db.stream.seekTo offset).map fun st => { db with stream := st }

/-- `fileWrite`: write bytes at the current stream position. -/
def fileWrite (db : XBase) (bs : List Nat) : XBase :=
  { db with stream := db.stream.write bs }

/-- `GoTo`: position on record `recNo` (1-based).  Below 1 is the BOF
sentinel, past the record count the EOF sentinel; otherwise set the record
number, seek, and read one record into the buffer (short read gives EOF,
with the bytes read so far already copied in, as `Read` fills the buffer). -/
def GoTo (db : XBase) (recNo : Int) : Option XErr × XBase :=
  if recNo < 1 then (some .bof, db)
  else if db.recCount < recNo then (some .eof, db)
  else
    let db := { db with recordNum := recNo }
    match db.seekRecord db.recordNum with
    | none => (some .ioError, db)
    | some db =>
      let n := db.buffer.length
      match db.stream.read n with
      | (none, st) => (some .eof, { db with stream := st })
      | (some bs, st) =>
        let db := { db with stream := st, buffer := bs ++ db.buffer.drop bs.length }
        if bs.length = n then (none, db) else (some .eof, db)

/-- `First`: go to record 1. -/
def First (db : XBase) : Option XErr × XBase := db.GoTo 1

/-- `Last`: go to the last record. -/
def Last (db : XBase) : Option XErr × XBase := db.GoTo db.recCount

/-- `Next`: go to the following record. -/
def Next (db : XBase) : Option XErr × XBase := db.GoTo (wrap64 (db.recordNum + 1))

/-- `Prev`: go to the preceding record. -/
def Prev (db : XBase) : Option XErr × XBase := db.GoTo (wrap64 (db.recordNum - 1))

/-- `RecNo`: the current 1-based record number. -/
def RecNo (db : XBase) : Int := db.recordNum

/-- `EOF`: the record number has run past the record count, or the table is
empty. -/
def EOF (db : XBase) : Bool := db.recCount < db.recordNum || db.recCount == 0

/-- `BOF`: no current record, or the table is empty. -/
def BOF (db : XBase) : Bool := db.recordNum == 0 || db.recCount == 0

/-- `fieldByNo`: the 1-based field lookup; out of range panics, which the
callers' deferred `wrapFieldError` turns into the sticky error. -/
def fieldByNo (db : XBase) (fieldNo : Int) : Option Field :=
  if fieldNo < 1 ∨ (db.fields.length : Int) < fieldNo then none
  else db.fields.get? (fieldNo - 1).toNat

/-- `FieldValueAsString`: short-circuit on the sticky error; otherwise read
the field, recording any failure as the sticky error and returning the zero
value. -/
def FieldValueAsString (db : XBase) (fieldNo : Int) : List Nat × XBase :=
  if db.err.isSome then ([], db)
  else
    match db.fieldByNo fieldNo with
    | none => ([], { db with err := some .fieldOutOfRange })
    | some f =>
      match f.stringValue db.buffer db.decoder with
      | .error e => ([], { db with err := some e })
      | .ok v => (v, db)

/-- `FieldValueAsInt`: as `FieldValueAsString`, for int64 values. -/
def FieldValueAsInt (db : XBase) (fieldNo : Int) : Int × XBase :=
  if db.err.isSome then (0, db)
  else
    match db.fieldByNo fieldNo with
    | none => (0, { db with err := some .fieldOutOfRange })
    | some f =>
      match f.intValue db.buffer with
      | .error e => (0, { db with err := some e })
      | .ok v => (v, db)

/-- `FieldValueAsFloat`: as `FieldValueAsString`, for float values. -/
def FieldValueAsFloat (db : XBase) (fieldNo : Int) : ℚ × XBase :=
  if db.err.isSome then (0, db)
  else
    match db.fieldByNo fieldNo with
    | none => (0, { db with err := some .fieldOutOfRange })
    | some f =>
      match f.floatValue db.buffer with
      | .error e => (0, { db with err := some e })
      | .ok v => (v, db)

/-- `FieldValueAsBool`: as `FieldValueAsString`, for logical values. -/
def FieldValueAsBool (db : XBase) (fieldNo : Int) : Bool × XBase :=
  if db.err.isSome then (false, db)
  else
    match db.fieldByNo fieldNo with
    | none => (false, { db with err := some .fieldOutOfRange })
    | some f =>
      match f.boolValue db.buffer with
      | .error e => (false, { db with err := some e })
      | .ok v => (v, db)

/-- `FieldValueAsDate`: as `FieldValueAsString`, for date values. -/
def FieldValueAsDate (db : XBase) (fieldNo : Int) : GoDate × XBase :=
  if db.err.isSome then (zeroDate, db)
  else
    match db.fieldByNo fieldNo with
    | none => (zeroDate, { db with err := some .fieldOutOfRange })
    | some f =>
      match f.dateValue db.buffer with
      | .error e => (zeroDate, { db with err := some e })
      | .ok v => (v, db)

/-- `SetFieldValue`: short-circuit on the sticky error, else dispatch to the
field codec; failures become the sticky error and the buffer keeps whatever
the codec left (the codec's error paths return it unchanged). -/
def SetFieldValue (db : XBase) (fieldNo : Int) (value : GoValue) : XBase :=
  if db.err.isSome then db
  else
    match db.fieldByNo fieldNo with
    | none => { db with err := some .fieldOutOfRange }
    | some f =>
      let r := f.setValue db.buffer value db.encoder
      { db with buffer := r.1, err := r.2 }

/-- `Add`: error when an unsaved added record is pending; otherwise space-
fill the buffer and enter adding mode. -/
def Add (db : XBase) : Option XErr × XBase :=
  if db.isAdd then (some .alreadyAdding, db)
  else (none, { db with isAdd := true,
                        buffer := List.replicate db.buffer.length 32 })

/-- `Save`: with a sticky error, return it.  In adding mode, seek to the slot
after the last record, write the buffer, bump the record count (uint32) and
record number (int64) and leave adding mode.  Otherwise record number 0 is a
no-op; else overwrite the current record.  Both write paths mark modified. -/
def Save (db : XBase) : Option XErr × XBase :=
  match db.err with
  | some e => (some e, db)
  | none =>
    if db.isAdd then
      match db.seekRecord (db.recCount + 1) with
      | none => (some .ioError, db)
      | some db1 =>
        let db2 := db1.fileWrite db1.buffer
        (none, { db2 with
                   recordNum := wrap64 (db2.recordNum + 1),
                   header := { db2.header with
                                 RecCount := (db2.header.RecCount + 1) % 2 ^ 32 },
                   isAdd := false,
                   isMod := true })
    else
      if db.recordNum = 0 then (none, db)
      else
        match db.seekRecord db.recordNum with
        | none => (some .ioError, db)
        | some db1 => (none, { db1.fileWrite db1.buffer with isMod := true })

/-- `Del`: set the deletion flag byte. -/
def Del (db : XBase) : XBase := { db with buffer := db.buffer.set 0 42 }

/-- `Recall`: clear the deletion flag byte. -/
def Recall (db : XBase) : XBase := { db with buffer := db.buffer.set 0 32 }

/-- `Clear`: space-fill the buffer, clear the sticky error, leave adding
mode. -/
def Clear (db : XBase) : XBase :=
  { db with buffer := List.replicate db.buffer.length 32,
            err := none, isAdd := false }

/-- `Error`: the sticky error. -/
def Error (db : XBase) : Option XErr := db.err

/-- `calcRecSize`: one deletion-flag byte plus the field lengths, as a
uint16. -/
def calcRecSize (db : XBase) : Nat :=
  (1 + (db.fields.map Field.Len).sum) % 65536

/-- `writeHeader`: derive the data offset and record size when still zero,
seek to 0 and write the 32 header bytes. -/
def writeHeader (db : XBase) : XBase :=
  let h := if db.header.DataOffset = 0
           then db.header.setFieldCount db.fields.length else db.header
  let h := if h.RecSize = 0 then { h with RecSize := db.calcRecSize } else h
  { db with header := h,
            stream := Stream.write { db.stream with pos := 0 } h.write }

/-- `writeFileEnd`: compute the expected terminated length
`DataOffset + RecCount·RecSize + 1`; when the file on disk is not exactly
one byte short of it, trust the outside writer and do nothing; otherwise
append the terminator byte 0x1A at the end. -/
def writeFileEnd (db : XBase) : XBase :=
  let size : Int :=
    (db.header.DataOffset : Int) + db.RecCount * (db.header.RecSize : Int) + 1
  if (db.stream.data.length : Int) + 1 ≠ size then db
  else { db with stream := db.stream.seekEnd.write [26] }

/-- `Flush`: when modified, stamp the modification date (`time.Now()` is the
`now` argument), rewrite the header, maintain the file terminator, and clear
the modified flag. -/
def Flush (db : XBase) (now : GoDate) : XBase :=
  if db.isMod then
    let db := { db with header := db.header.setModDate now }
    let db := db.writeHeader
    let db := db.writeFileEnd
    { db with isMod := false }
  else db

/-- `checkFields`: a file cannot be created without fields. -/
def checkFields (db : XBase) : Option XErr :=
  if db.fields = [] then some .structureUndefined else none

end XBase

/-- The field-table serialisation loop of `writeFields`: assign each field
its record-relative offset (starting at 1, accumulating lengths) and emit
its 32 bytes, then the header terminator 0x0D. -/
def writeFieldsGo : List Field → Nat → List Nat × List Field
  | [], _ => ([13], [])
  | f :: rest, offset =>
    let f := { f with Offset := offset % 2 ^ 32 }
    let fbytes :=
      (f.Name.take 11 ++ List.replicate (11 - (f.Name.take 11).length) 0) ++
      [f.Typ % 256] ++ u32le 0 ++ [f.Len % 256, f.Dec % 256] ++
      List.replicate 14 0
    let r := writeFieldsGo rest (offset + f.Len)
    (fbytes ++ r.1, f :: r.2)

namespace XBase

/-- `writeFields`: write every descriptor (with the on-disk offset field
zeroed) followed by the header terminator, updating the in-memory offsets. -/
def writeFields (db : XBase) : XBase :=
  let r := writeFieldsGo db.fields 1
  { db with fields := r.2, stream := db.stream.write r.1 }

/-- `makeBuf`: allocate the record buffer (`make` zero-fills it). -/
def makeBuf (db : XBase) : XBase :=
  { db with buffer := List.replicate db.header.RecSize 0 }

/-- `CreateFile`: require fields, bind a fresh empty file, write header and
field table, allocate the buffer and mark modified. -/
def CreateFile (db : XBase) : Option XErr × XBase :=
  match db.checkFields with
  | some e => (some e, db)
  | none =>
    let db := { db with stream := ⟨[], 0⟩ }
    let db := db.writeHeader
    let db := db.writeFields
    let db := db.makeBuf
    (none, { db with isMod := true })

end XBase

/-! ### Helper lemmas: buffer writing, padding, trimming -/

theorem writeBytes_eq (src : List Nat) : ∀ (dst : List Nat) (start : Nat),
    start + src.length ≤ dst.length →
    Field.writeBytes dst start src =
      dst.take start ++ src ++ dst.drop (start + src.length) := by
  induction src with
  | nil =>
    intro dst start _
    simp [Field.writeBytes]
  | cons b rest ih =>
    intro dst start h
    simp only [List.length_cons] at h
    have hlt : start < dst.length := by omega
    have hlen : start + 1 + rest.length ≤ (dst.set start b).length := by
      simp only [List.length_set]; omega
    rw [Field.writeBytes, ih (dst.set start b) (start + 1) hlen,
        List.set_eq_take_cons_drop b hlt]
    have hTake : (dst.take start).length = start := List.length_take_of_le (by omega)
    have e1 : (dst.take start ++ b :: dst.drop (start + 1)).take (start + 1) =
        dst.take start ++ [b] := by
      rw [show start + 1 = (dst.take start).length + 1 by omega, List.take_append]
      simp
    have e2 : (dst.take start ++ b :: dst.drop (start + 1)).drop
        (start + 1 + rest.length) = dst.drop (start + (rest.length + 1)) := by
      rw [show start + 1 + rest.length = (dst.take start).length + (1 + rest.length)
            by omega,
          List.drop_append, show 1 + rest.length = rest.length + 1 by omega,
          List.drop_succ_cons, List.drop_drop,
          show start + 1 + rest.length = start + (rest.length + 1) by omega]
    rw [e1, e2]
    simp [List.append_assoc]

theorem length_padLeft (s : List Nat) (w : Nat) (h : s.length ≤ w) :
    (padLeft s w).length = w := by
  unfold padLeft
  split
  · omega
  · simp only [List.length_append, List.length_replicate]; omega

theorem length_padRight (s : List Nat) (w : Nat) (h : s.length ≤ w) :
    (padRight s w).length = w := by
  unfold padRight
  split
  · omega
  · simp only [List.length_append, List.length_replicate]; omega

theorem setBuffer_spec (f : Field) (buf v : List Nat)
    (hlen : v.length = f.Len) (hWF : f.Offset + f.Len ≤ buf.length) :
    f.setBuffer buf v = buf.take f.Offset ++ v ++ buf.drop (f.Offset + f.Len) := by
  unfold Field.setBuffer
  rw [List.take_of_length_le (by omega), writeBytes_eq v buf f.Offset (by omega), hlen]

theorem buffer_setBuffer (f : Field) (buf v : List Nat)
    (hlen : v.length = f.Len) (hWF : f.Offset + f.Len ≤ buf.length) :
    f.buffer (f.setBuffer buf v) = v := by
  rw [setBuffer_spec f buf v hlen hWF]
  unfold Field.buffer
  have hTake : (buf.take f.Offset).length = f.Offset :=
    List.length_take_of_le (by omega)
  rw [List.append_assoc, List.drop_left' hTake, List.take_left' hlen]

theorem dropWhile_eq_self_of_neg {p : Nat → Bool} {s : List Nat}
    (h : ∀ b ∈ s, p b = false) : s.dropWhile p = s := by
  cases s with
  | nil => rfl
  | cons b rest =>
    rw [List.dropWhile_cons]
    simp [h b (List.mem_cons_self b rest)]

theorem trimSpaceB_of_no_space {s : List Nat}
    (h : ∀ b ∈ s, isSpaceB b = false) : trimSpaceB s = s := by
  unfold trimSpaceB
  rw [dropWhile_eq_self_of_neg h,
      dropWhile_eq_self_of_neg (fun b hb => h b (List.mem_reverse.mp hb)),
      List.reverse_reverse]

theorem trimSpaceB_padLeft (s : List Nat) (w : Nat)
    (h : ∀ b ∈ s, isSpaceB b = false) : trimSpaceB (padLeft s w) = s := by
  unfold padLeft
  split
  · exact trimSpaceB_of_no_space h
  · unfold trimSpaceB
    rw [List.dropWhile_append_of_pos (by
      intro a ha
      rw [List.eq_of_mem_replicate ha]
      rfl)]
    rw [dropWhile_eq_self_of_neg h,
        dropWhile_eq_self_of_neg (fun b hb => h b (List.mem_reverse.mp hb)),
        List.reverse_reverse]

/-! ### Helper lemmas: decimal rendering and parsing -/

theorem natDigitsLE_eq_digits : ∀ (fuel n : Nat), n ≤ fuel →
    natDigitsLE fuel n = Nat.digits 10 n := by
  intro fuel
  induction fuel with
  | zero =>
    intro n hn
    have : n = 0 := by omega
    subst this
    simp [natDigitsLE]
  | succ fuel ih =>
    intro n hn
    unfold natDigitsLE
    by_cases h0 : n = 0
    · subst h0; simp
    · rw [if_neg h0, Nat.digits_def' (by norm_num : (1:Nat) < 10) (by omega),
          ih (n / 10) (by omega)]

theorem natDecimal_eq (n : Nat) :
    natDecimal n =
      if n = 0 then [48] else (Nat.digits 10 n).reverse.map (fun d => d + 48) := by
  unfold natDecimal
  split
  · rfl
  · rw [natDigitsLE_eq_digits n n le_rfl]

theorem natDecimal_ne_nil (n : Nat) : natDecimal n ≠ [] := by
  rw [natDecimal_eq]
  split
  · simp
  · simp only [ne_eq, List.map_eq_nil_iff, List.reverse_eq_nil_iff]
    intro hc
    exact absurd (Nat.digits_eq_nil_iff_eq_zero.mp hc) (by assumption)

theorem natDecimal_digits {n : Nat} : ∀ b ∈ natDecimal n, 48 ≤ b ∧ b ≤ 57 := by
  intro b hb
  rw [natDecimal_eq] at hb
  split at hb
  · simp at hb
    omega
  · simp only [List.mem_map, List.mem_reverse] at hb
    obtain ⟨d, hd, rfl⟩ := hb
    have := Nat.digits_lt_base (by norm_num) hd
    omega

theorem parseNatAcc_digits (l : List Nat) : ∀ acc, (∀ d ∈ l, d < 10) →
    parseNatAcc (l.map (fun d => d + 48)) acc =
      some (l.foldl (fun a d => a * 10 + d) acc) := by
  induction l with
  | nil => intro acc _; rfl
  | cons d rest ih =>
    intro acc h
    have hd : d < 10 := h d (List.mem_cons_self d rest)
    simp only [List.map_cons, parseNatAcc, List.foldl_cons]
    rw [show digitVal (d + 48) = some d by unfold digitVal; rw [if_pos (by omega)]; simp]
    exact ih (acc * 10 + d) (fun x hx => h x (List.mem_cons_of_mem d hx))

theorem foldr_ofDigits (L : List Nat) :
    L.foldr (fun d a => a * 10 + d) 0 = Nat.ofDigits 10 L := by
  induction L with
  | nil => simp [Nat.ofDigits]
  | cons d L ih =>
    simp only [List.foldr_cons, ih, Nat.ofDigits_cons, Nat.cast_id]
    ring

theorem parseNatAcc_natDecimal (n : Nat) : parseNatAcc (natDecimal n) 0 = some n := by
  rw [natDecimal_eq]
  split
  · next h => subst h; rfl
  · rw [parseNatAcc_digits _ 0
        (fun d hd => Nat.digits_lt_base (by norm_num) (List.mem_reverse.mp hd))]
    rw [List.foldl_reverse, foldr_ofDigits, Nat.ofDigits_digits]

theorem formatInt_ne_nil (v : Int) : formatInt v ≠ [] := by
  unfold formatInt
  split
  · simp
  · exact natDecimal_ne_nil _

theorem formatInt_bytes (v : Int) :
    ∀ b ∈ formatInt v, b = 45 ∨ (48 ≤ b ∧ b ≤ 57) := by
  intro b hb
  unfold formatInt at hb
  split at hb
  · rcases List.mem_cons.mp hb with h | h
    · exact Or.inl h
    · exact Or.inr (natDecimal_digits b h)
  · exact Or.inr (natDecimal_digits b hb)

theorem parseInt64_cons_digits (d : Nat) (ds : List Nat) (n : Nat)
    (hd : 48 ≤ d ∧ d ≤ 57) (hparse : parseNatAcc (d :: ds) 0 = some n)
    (hn : n ≤ 2 ^ 63 - 1) :
    parseInt64 (d :: ds) = some (n : Int) := by
  simp only [parseInt64]
  rw [if_neg (by omega), if_neg (by omega)]
  simp only [parseInt64Digits]
  rw [hparse]
  simp only [Bool.false_eq_true, if_false]
  rw [if_pos (by omega)]

theorem parseInt64_formatInt (v : Int) (hlo : -(2 ^ 63) ≤ v) (hhi : v < 2 ^ 63) :
    parseInt64 (formatInt v) = some v := by
  by_cases hneg : v < 0
  · have hfmt : formatInt v = 45 :: natDecimal v.natAbs := by
      unfold formatInt; rw [if_pos hneg]
    obtain ⟨d, ds, hds⟩ : ∃ d ds, natDecimal v.natAbs = d :: ds := by
      cases h : natDecimal v.natAbs with
      | nil => exact absurd h (natDecimal_ne_nil _)
      | cons d ds => exact ⟨d, ds, rfl⟩
    rw [hfmt, hds]
    simp only [parseInt64]
    rw [if_pos trivial]
    simp only [parseInt64Digits]
    rw [← hds, parseNatAcc_natDecimal]
    simp only [if_true]
    rw [if_pos (by omega)]
    congr 1
    omega
  · have hfmt : formatInt v = natDecimal v.natAbs := by
      unfold formatInt; rw [if_neg hneg]
    obtain ⟨d, ds, hds⟩ : ∃ d ds, natDecimal v.natAbs = d :: ds := by
      cases h : natDecimal v.natAbs with
      | nil => exact absurd h (natDecimal_ne_nil _)
      | cons d ds => exact ⟨d, ds, rfl⟩
    have hd : 48 ≤ d ∧ d ≤ 57 := natDecimal_digits d (by rw [hds]; simp)
    rw [hfmt, hds,
        parseInt64_cons_digits d ds v.natAbs hd (by rw [← hds]; exact parseNatAcc_natDecimal _)
          (by omega)]
    congr 1
    omega

theorem renderInt_bytes (v : Int) (dec : Nat) :
    ∀ b ∈ renderInt v dec, b = 45 ∨ b = 46 ∨ (48 ≤ b ∧ b ≤ 57) := by
  intro b hb
  unfold renderInt at hb
  split at hb
  · rcases List.mem_append.mp hb with h | h
    · rcases formatInt_bytes v b h with h2 | h2
      · exact Or.inl h2
      · exact Or.inr (Or.inr h2)
    · rcases List.mem_cons.mp h with h2 | h2
      · exact Or.inr (Or.inl h2)
      · rw [List.eq_of_mem_replicate h2]
        exact Or.inr (Or.inr (by omega))
  · rcases formatInt_bytes v b hb with h2 | h2
    · exact Or.inl h2
    · exact Or.inr (Or.inr h2)

theorem renderInt_no_space (v : Int) (dec : Nat) :
    ∀ b ∈ renderInt v dec, isSpaceB b = false := by
  intro b hb
  rcases renderInt_bytes v dec b hb with h | h | h <;>
    simp [isSpaceB] <;> omega

theorem renderInt_ne_nil (v : Int) (dec : Nat) : renderInt v dec ≠ [] := by
  unfold renderInt
  split
  · simp [formatInt_ne_nil v]
  · exact formatInt_ne_nil v

theorem renderInt_headD (v : Int) (dec : Nat) :
    (renderInt v dec).headD 0 = (formatInt v).headD 0 := by
  obtain ⟨d, ds, hds⟩ : ∃ d ds, formatInt v = d :: ds := by
    cases h : formatInt v with
    | nil => exact absurd h (formatInt_ne_nil _)
    | cons d ds => exact ⟨d, ds, rfl⟩
  unfold renderInt
  rw [hds]
  split <;> rfl

theorem renderInt_headD_ne46 (v : Int) (dec : Nat) :
    (renderInt v dec).headD 0 ≠ 46 := by
  rw [renderInt_headD]
  obtain ⟨d, ds, hds⟩ : ∃ d ds, formatInt v = d :: ds := by
    cases h : formatInt v with
    | nil => exact absurd h (formatInt_ne_nil _)
    | cons d ds => exact ⟨d, ds, rfl⟩
  rw [hds]
  rcases formatInt_bytes v d (by rw [hds]; simp) with h | h <;> simp <;> omega

theorem findIdx46_formatInt (v : Int) :
    (formatInt v).findIdx? (fun b => b == 46) = none := by
  rw [List.findIdx?_eq_none_iff]
  intro b hb
  rcases formatInt_bytes v b hb with h | h <;> simp <;> omega

theorem findIdx46_renderInt_pos (v : Int) (dec : Nat) (h : 0 < dec) :
    (renderInt v dec).findIdx? (fun b => b == 46) =
      some (formatInt v).length := by
  unfold renderInt
  rw [if_pos h, List.findIdx?_append, findIdx46_formatInt, List.findIdx?_cons]
  norm_num

/-- The set-then-get round trip for N fields, shared by the theorems about
`setIntValue` and the dynamic dispatcher. -/
theorem setInt_intValue_core (f : Field) (buf : List Nat) (v : Int)
    (hT : f.Typ = FieldType_Numeric)
    (hWF : f.Offset + f.Len ≤ buf.length)
    (hlo : -(2 ^ 63) ≤ v) (hhi : v < 2 ^ 63)
    (hFit : (renderInt v f.Dec).length ≤ f.Len) :
    (f.setIntValue buf v).2 = none ∧
    Field.intValue f (f.setIntValue buf v).1 = .ok v := by
  have hct : f.checkType FieldType_Numeric = none := by
    unfold Field.checkType
    rw [if_neg (by rw [hT]; simp)]
  have hset : f.setIntValue buf v =
      (f.setBuffer buf (padLeft (renderInt v f.Dec) f.Len), none) := by
    unfold Field.setIntValue
    rw [hct]
    simp only
    unfold Field.checkLen
    rw [if_neg (by omega)]
  rw [hset]
  refine ⟨rfl, ?_⟩
  have hlen : (padLeft (renderInt v f.Dec) f.Len).length = f.Len :=
    length_padLeft _ _ hFit
  unfold Field.intValue
  rw [hct]
  simp only
  rw [buffer_setBuffer f buf _ hlen hWF, trimSpaceB_padLeft _ _ (renderInt_no_space v f.Dec),
      if_neg (by
        rintro (hc | hc)
        · exact renderInt_ne_nil v f.Dec hc
        · exact renderInt_headD_ne46 v f.Dec hc)]
  by_cases hdec : 0 < f.Dec
  · rw [findIdx46_renderInt_pos v f.Dec hdec]
    simp only
    rw [if_pos (by
          have := formatInt_ne_nil v
          cases h : formatInt v with
          | nil => exact absurd h this
          | cons d ds => simp [h]),
        show renderInt v f.Dec = formatInt v ++ 46 :: List.replicate f.Dec 48 by
          unfold renderInt; rw [if_pos hdec],
        List.take_left, parseInt64_formatInt v hlo hhi]
  · have hr : renderInt v f.Dec = formatInt v := by
      unfold renderInt; rw [if_neg hdec]
    rw [hr, findIdx46_formatInt v]
    simp only
    rw [parseInt64_formatInt v hlo hhi]

/-! ### Claim theorems -/

/-- Claim C5: for every N field f (any decimal count, including
decimals > 0) and every signed 64-bit integer v whose rendered form
(decimal digits, optional sign, plus the '.' and decimals zero fill digits
when decimals > 0) fits in f's declared length, reading back with get_int
after set_int(v) on the same record buffer yields exactly v. -/
theorem C5_setInt_getInt_roundtrip (f : Field) (buf : List Nat) (v : Int)
    (hT : f.Typ = FieldType_Numeric)
    (hWF : f.Offset + f.Len ≤ buf.length)
    (hlo : -(2 ^ 63) ≤ v) (hhi : v < 2 ^ 63)
    (hFit : (renderInt v f.Dec).length ≤ f.Len) :
    (f.setIntValue buf v).2 = none ∧
    Field.intValue f (f.setIntValue buf v).1 = .ok v :=
  setInt_intValue_core f buf v hT hWF hlo hhi hFit

/-- Witness for C5 at an N field of length 8 with two decimals and the value
-7 (stored as "   -7.00"). -/
theorem C5_witness :
    (Field.setIntValue ⟨[78], 78, 1, 8, 2⟩ (List.replicate 10 32) (-7)).2 = none ∧
    Field.intValue ⟨[78], 78, 1, 8, 2⟩
      (Field.setIntValue ⟨[78], 78, 1, 8, 2⟩ (List.replicate 10 32) (-7)).1 =
        .ok (-7) :=
  C5_setInt_getInt_roundtrip ⟨[78], 78, 1, 8, 2⟩ (List.replicate 10 32) (-7)
    rfl (by decide) (by decide) (by decide) (by decide)

/-- Claim C10: the generic value dispatcher converts unsigned 64-bit values
through signed two's-complement int64: a uint64 value v ≥ 2^63 set into an
N field is encoded (and read back by get_int) as v − 2^64, a negative
number; v < 2^63 is encoded unchanged. -/
theorem C10_uint64_twos_complement (f : Field) (buf : List Nat) (v : Nat)
    (enc : Option Translator)
    (hT : f.Typ = FieldType_Numeric)
    (hWF : f.Offset + f.Len ≤ buf.length)
    (hv : v < 2 ^ 64)
    (hFit : (renderInt (int64OfUInt64 v) f.Dec).length ≤ f.Len) :
    (f.setValue buf (.vuint64 v) enc).2 = none ∧
    Field.intValue f (f.setValue buf (.vuint64 v) enc).1 =
      .ok (if v < 2 ^ 63 then (v : Int) else (v : Int) - 2 ^ 64) := by
  have hconv : int64OfUInt64 v =
      if v < 2 ^ 63 then (v : Int) else (v : Int) - 2 ^ 64 := by
    unfold int64OfUInt64
    rw [Nat.mod_eq_of_lt hv]
  have core := setInt_intValue_core f buf (int64OfUInt64 v) hT hWF
    (by unfold int64OfUInt64; rw [Nat.mod_eq_of_lt hv]; split <;> omega)
    (by unfold int64OfUInt64; rw [Nat.mod_eq_of_lt hv]; split <;> omega)
    hFit
  simp only [Field.setValue]
  rw [← hconv]
  exact core

/-- Witness for C10 at the value 2^64 − 5 (which is at least 2^63), read
back as −5 = (2^64 − 5) − 2^64. -/
theorem C10_witness :
    (Field.setValue ⟨[78], 78, 1, 19, 0⟩ (List.replicate 21 32)
       (.vuint64 (2 ^ 64 - 5)) none).2 = none ∧
    Field.intValue ⟨[78], 78, 1, 19, 0⟩
      (Field.setValue ⟨[78], 78, 1, 19, 0⟩ (List.replicate 21 32)
         (.vuint64 (2 ^ 64 - 5)) none).1 =
      .ok (if 2 ^ 64 - 5 < 2 ^ 63 then ((2 ^ 64 - 5 : Nat) : Int)
           else ((2 ^ 64 - 5 : Nat) : Int) - 2 ^ 64) :=
  C10_uint64_twos_complement ⟨[78], 78, 1, 19, 0⟩ (List.replicate 21 32)
    (2 ^ 64 - 5) none rfl (by decide) (by decide) (by decide)

/-- Claim C4: for every C field and string, if the (possibly code-page-
encoded) byte length exceeds the declared length then set_string fails with
a value-overflow error and leaves the record buffer unchanged; if it fits,
set_string writes the value into the field slice right-space-padded to
exactly the declared length. -/
theorem C4_setString_overflow_or_pad (f : Field) (buf v v2 : List Nat)
    (enc : Option Translator)
    (hT : f.Typ = FieldType_Character)
    (hE : Field.encodeValue enc v = some v2)
    (hWF : f.Offset + f.Len ≤ buf.length) :
    (f.Len < v2.length →
      f.setStringValue buf v enc = (buf, some XErr.valueOverflow)) ∧
    (v2.length ≤ f.Len →
      (f.setStringValue buf v enc).2 = none ∧
      Field.buffer f (f.setStringValue buf v enc).1 = padRight v2 f.Len ∧
      (padRight v2 f.Len).length = f.Len) := by
  have hct : f.checkType FieldType_Character = none := by
    unfold Field.checkType
    rw [if_neg (by rw [hT]; simp)]
  have heq : f.setStringValue buf v enc =
      (match f.checkLen v2 with
       | some e => (buf, some e)
       | none => (f.setBuffer buf (padRight v2 f.Len), none)) := by
    unfold Field.setStringValue
    rw [hct, hE]
  rw [heq]
  constructor
  · intro hover
    rw [show f.checkLen v2 = some XErr.valueOverflow by
          unfold Field.checkLen; rw [if_pos hover]]
  · intro hfit
    rw [show f.checkLen v2 = none by
          unfold Field.checkLen; rw [if_neg (by omega)]]
    have hlen : (padRight v2 f.Len).length = f.Len := length_padRight _ _ hfit
    exact ⟨rfl, buffer_setBuffer f buf _ hlen hWF, hlen⟩

/-- Witness for C4: a C field of length 3; "ABCD" overflows, "AB" is stored
as "AB ". -/
theorem C4_witness :
    (Field.setStringValue ⟨[67], 67, 1, 3, 0⟩ (List.replicate 5 32)
        [65, 66, 67, 68] none = (List.replicate 5 32, some XErr.valueOverflow)) ∧
    ((Field.setStringValue ⟨[67], 67, 1, 3, 0⟩ (List.replicate 5 32)
        [65, 66] none).2 = none ∧
      Field.buffer ⟨[67], 67, 1, 3, 0⟩
        (Field.setStringValue ⟨[67], 67, 1, 3, 0⟩ (List.replicate 5 32)
          [65, 66] none).1 = padRight [65, 66] 3) :=
  ⟨(C4_setString_overflow_or_pad ⟨[67], 67, 1, 3, 0⟩ (List.replicate 5 32)
      [65, 66, 67, 68] [65, 66, 67, 68] none rfl rfl (by decide)).1 (by decide),
   ⟨((C4_setString_overflow_or_pad ⟨[67], 67, 1, 3, 0⟩ (List.replicate 5 32)
      [65, 66] [65, 66] none rfl rfl (by decide)).2 (by decide)).1,
    (((C4_setString_overflow_or_pad ⟨[67], 67, 1, 3, 0⟩ (List.replicate 5 32)
      [65, 66] [65, 66] none rfl rfl (by decide)).2 (by decide)).2).1⟩⟩

/-- Claim C9: out-of-range positioning is atomic: for n < 1 or
n > RecCount, GoTo(n) returns its sentinel and leaves the engine state
(record number, buffer, sticky error, stream) exactly as it was. -/
theorem C9_goto_out_of_range_atomic (db : XBase) (n : Int)
    (h : n < 1 ∨ db.recCount < n) :
    db.GoTo n = ((if n < 1 then some XErr.bof else some XErr.eof), db) := by
  unfold XBase.GoTo
  by_cases h1 : n < 1
  · rw [if_pos h1, if_pos h1]
  · rw [if_neg h1, if_pos (by omega), if_neg h1]

/-- Witness for C9 on a one-record table, at n = 3 (past EOF). -/
theorem C9_witness :
    XBase.GoTo ⟨⟨3, 0, 0, 0, 1, 1, 1, 0⟩, [], ⟨[0, 65], 0⟩, [32], none, 0,
        false, false, none, none⟩ 3 =
      ((if (3 : Int) < 1 then some XErr.bof else some XErr.eof),
        ⟨⟨3, 0, 0, 0, 1, 1, 1, 0⟩, [], ⟨[0, 65], 0⟩, [32], none, 0,
          false, false, none, none⟩) :=
  C9_goto_out_of_range_atomic _ 3 (by right; decide)

/-- Claim C3: once the sticky error is non-nil, every field getter and
SetFieldValue returns immediately with the zero value, changing neither the
record buffer nor the sticky error (the whole engine state is untouched);
and Save returns that error without writing to the stream or changing
RecCount. -/
theorem C3_sticky_error_short_circuit (db : XBase) (e : XErr)
    (h : db.err = some e) :
    (∀ k, db.FieldValueAsString k = ([], db)) ∧
    (∀ k, db.FieldValueAsInt k = (0, db)) ∧
    (∀ k, db.FieldValueAsFloat k = (0, db)) ∧
    (∀ k, db.FieldValueAsBool k = (false, db)) ∧
    (∀ k, db.FieldValueAsDate k = (zeroDate, db)) ∧
    (∀ k val, db.SetFieldValue k val = db) ∧
    db.Save = (some e, db) := by
  have hs : db.err.isSome = true := by rw [h]; rfl
  refine ⟨?_, ?_, ?_, ?_, ?_, ?_, ?_⟩
  · intro k; unfold XBase.FieldValueAsString; rw [if_pos hs]
  · intro k; unfold XBase.FieldValueAsInt; rw [if_pos hs]
  · intro k; unfold XBase.FieldValueAsFloat; rw [if_pos hs]
  · intro k; unfold XBase.FieldValueAsBool; rw [if_pos hs]
  · intro k; unfold XBase.FieldValueAsDate; rw [if_pos hs]
  · intro k val; unfold XBase.SetFieldValue; rw [if_pos hs]
  · unfold XBase.Save; rw [h]

/-- Witness for C3 on an engine whose sticky error is a type mismatch. -/
theorem C3_witness :
    (XBase.FieldValueAsInt ⟨⟨3, 0, 0, 0, 1, 1, 1, 0⟩, [], ⟨[0, 65], 0⟩, [32],
        some XErr.typeMismatch, 0, false, false, none, none⟩ 1 =
      (0, ⟨⟨3, 0, 0, 0, 1, 1, 1, 0⟩, [], ⟨[0, 65], 0⟩, [32],
        some XErr.typeMismatch, 0, false, false, none, none⟩)) ∧
    (XBase.Save ⟨⟨3, 0, 0, 0, 1, 1, 1, 0⟩, [], ⟨[0, 65], 0⟩, [32],
        some XErr.typeMismatch, 0, false, false, none, none⟩ =
      (some XErr.typeMismatch, ⟨⟨3, 0, 0, 0, 1, 1, 1, 0⟩, [], ⟨[0, 65], 0⟩,
        [32], some XErr.typeMismatch, 0, false, false, none, none⟩)) :=
  ⟨(C3_sticky_error_short_circuit _ XErr.typeMismatch rfl).2.1 1,
   (C3_sticky_error_short_circuit _ XErr.typeMismatch rfl).2.2.2.2.2.2⟩

/-- Successful in-range `GoTo`: the record number is set, the stream
position advances past the record just read, and the buffer holds exactly
the record's bytes. -/
theorem goTo_in_range (db : XBase) (k : Nat)
    (h2 : ((k + 1 : Nat) : Int) ≤ db.recCount)
    (hbuf : db.buffer.length = db.header.RecSize)
    (hR : 1 ≤ db.header.RecSize)
    (hdata : db.header.DataOffset + db.header.RecSize * (k + 1) ≤
      db.stream.data.length) :
    db.GoTo ((k + 1 : Nat) : Int) = (none,
      { db with
          recordNum := ((k + 1 : Nat) : Int),
          stream := { db.stream with
            pos := db.header.DataOffset + db.header.RecSize * k +
              db.header.RecSize },
          buffer := (db.stream.data.drop
            (db.header.DataOffset + db.header.RecSize * k)).take
              db.header.RecSize }) := by
  have hP : db.header.DataOffset + db.header.RecSize * k + db.header.RecSize ≤
      db.stream.data.length := by
    rw [Nat.mul_succ] at hdata
    omega
  unfold XBase.GoTo
  rw [if_neg (by omega), if_neg (by omega)]
  simp only [XBase.seekRecord, Stream.seekTo]
  rw [show (db.header.DataOffset : Int) + (db.header.RecSize : Int) *
        (((k + 1 : Nat) : Int) - 1) =
        ((db.header.DataOffset + db.header.RecSize * k : Nat) : Int) by
      push_cast
      ring]
  rw [if_neg (by omega)]
  simp only [Option.map_some', Int.toNat_natCast]
  simp only [Stream.read, hbuf]
  rw [if_neg (by omega), if_neg (by omega)]
  rw [show min db.header.RecSize
        (db.stream.data.length - (db.header.DataOffset + db.header.RecSize * k)) =
        db.header.RecSize by omega]
  have hbs : ((db.stream.data.drop
      (db.header.DataOffset + db.header.RecSize * k)).take
        db.header.RecSize).length = db.header.RecSize := by
    rw [List.length_take, List.length_drop]
    omega
  have hdrop : db.buffer.drop db.header.RecSize = [] := by
    rw [← hbuf, List.drop_length]
  simp only [hbs, eq_self_iff_true, if_true, hdrop, List.append_nil]

/-- In-range `GoTo` against a stream that ends before the record does
returns the EOF sentinel. -/
theorem goTo_short_read (db : XBase) (k : Nat)
    (h2 : ((k + 1 : Nat) : Int) ≤ db.recCount)
    (hbuf : db.buffer.length = db.header.RecSize)
    (hR : 1 ≤ db.header.RecSize)
    (hdata : db.stream.data.length <
      db.header.DataOffset + db.header.RecSize * (k + 1)) :
    (db.GoTo ((k + 1 : Nat) : Int)).1 = some XErr.eof := by
  have hP : db.stream.data.length <
      db.header.DataOffset + db.header.RecSize * k + db.header.RecSize := by
    rw [Nat.mul_succ] at hdata
    omega
  unfold XBase.GoTo
  rw [if_neg (by omega), if_neg (by omega)]
  simp only [XBase.seekRecord, Stream.seekTo]
  rw [show (db.header.DataOffset : Int) + (db.header.RecSize : Int) *
        (((k + 1 : Nat) : Int) - 1) =
        ((db.header.DataOffset + db.header.RecSize * k : Nat) : Int) by
      push_cast
      ring]
  rw [if_neg (by omega)]
  simp only [Option.map_some', Int.toNat_natCast]
  simp only [Stream.read, hbuf]
  rw [if_neg (by omega)]
  by_cases hpos : db.stream.data.length ≤
      db.header.DataOffset + db.header.RecSize * k
  · rw [if_pos hpos]
  · rw [if_neg hpos]
    have hne : ¬ (((db.stream.data.drop
        (db.header.DataOffset + db.header.RecSize * k)).take
          (min db.header.RecSize (db.stream.data.length -
            (db.header.DataOffset + db.header.RecSize * k)))).length =
          db.header.RecSize) := by
      rw [List.length_take, List.length_drop]
      omega
    simp only [hne, if_false]

/-- Claim C2: GoTo(n) returns the BOF sentinel for n < 1, the EOF sentinel
for n > RecCount (each leaving the engine unchanged); otherwise it seeks to
data_offset + record_size·(n−1), reads exactly record_size bytes into the
record buffer (returning EOF on a short read) and sets the current record
number to n. -/
theorem C2_goto_positioning (db : XBase) (n : Int)
    (hbuf : db.buffer.length = db.header.RecSize)
    (hR : 1 ≤ db.header.RecSize) :
    (n < 1 → db.GoTo n = (some XErr.bof, db)) ∧
    (db.recCount < n → db.GoTo n = (some XErr.eof, db)) ∧
    (1 ≤ n → n ≤ db.recCount →
      db.header.DataOffset + db.header.RecSize * n.toNat ≤
        db.stream.data.length →
      db.GoTo n = (none,
        { db with
            recordNum := n,
            stream := { db.stream with
              pos := db.header.DataOffset +
                db.header.RecSize * (n.toNat - 1) + db.header.RecSize },
            buffer := (db.stream.data.drop
              (db.header.DataOffset +
                db.header.RecSize * (n.toNat - 1))).take
                  db.header.RecSize })) ∧
    (1 ≤ n → n ≤ db.recCount →
      db.stream.data.length <
        db.header.DataOffset + db.header.RecSize * n.toNat →
      (db.GoTo n).1 = some XErr.eof) := by
  refine ⟨?_, ?_, ?_, ?_⟩
  · intro h1
    unfold XBase.GoTo
    rw [if_pos h1]
  · intro h1
    have hrc : (0 : Int) ≤ db.recCount := Int.natCast_nonneg _
    unfold XBase.GoTo
    rw [if_neg (by omega), if_pos h1]
  · intro h1 h2 h3
    obtain ⟨k, rfl⟩ : ∃ k : Nat, n = ((k + 1 : Nat) : Int) :=
      ⟨n.toNat - 1, by omega⟩
    simp only [Int.toNat_natCast, Nat.add_sub_cancel] at h3 ⊢
    exact goTo_in_range db k h2 hbuf hR h3
  · intro h1 h2 h3
    obtain ⟨k, rfl⟩ : ∃ k : Nat, n = ((k + 1 : Nat) : Int) :=
      ⟨n.toNat - 1, by omega⟩
    simp only [Int.toNat_natCast] at h3
    exact goTo_short_read db k h2 hbuf hR h3

/-- Witness for C2 on a one-record table: GoTo(1) reads record 1 (the byte
65 at offset 1) and sets the record number to 1. -/
theorem C2_witness :
    XBase.GoTo ⟨⟨3, 0, 0, 0, 1, 1, 1, 0⟩, [], ⟨[0, 65], 0⟩, [32], none, 0,
        false, false, none, none⟩ 1 =
      (none,
        { (⟨⟨3, 0, 0, 0, 1, 1, 1, 0⟩, [], ⟨[0, 65], 0⟩, [32], none, 0,
            false, false, none, none⟩ : XBase) with
            recordNum := 1,
            stream := ⟨[0, 65], 1 * (((1 : Int)).toNat - 1) + 1 + 1⟩,
            buffer := (([0, 65] : List Nat).drop
              (1 + 1 * (((1 : Int)).toNat - 1))).take 1 }) := by
  have h := (C2_goto_positioning ⟨⟨3, 0, 0, 0, 1, 1, 1, 0⟩, [], ⟨[0, 65], 0⟩,
      [32], none, 0, false, false, none, none⟩ 1 rfl (by decide)).2.2.1
      (by decide) (by decide) (by decide)
  rw [h]
  rfl

/-- Claim C1: Save in adding mode writes the record buffer at stream offset
data_offset + record_size·record_count, increases RecCount by exactly 1,
increases the current record number by 1 and clears the adding flag; Save in
edit mode with current record number n ≥ 1 overwrites record n and leaves
RecCount unchanged; Save in edit mode with record number 0 is a no-op. -/
theorem C1_save_modes (db : XBase) (h : db.err = none)
    (hRC : db.header.RecCount + 1 < 2 ^ 32)
    (hRN1 : 0 ≤ db.recordNum) (hRN2 : db.recordNum + 1 < 2 ^ 63) :
    (db.isAdd = true →
      db.Save = (none,
        { db with
            stream := Stream.write
              { db.stream with
                  pos := db.header.DataOffset +
                    db.header.RecSize * db.header.RecCount } db.buffer,
            recordNum := db.recordNum + 1,
            header := { db.header with RecCount := db.header.RecCount + 1 },
            isAdd := false, isMod := true })) ∧
    (db.isAdd = false → db.recordNum = 0 → db.Save = (none, db)) ∧
    (db.isAdd = false → 1 ≤ db.recordNum →
      db.Save = (none,
        { db with
            stream := Stream.write
              { db.stream with
                  pos := db.header.DataOffset +
                    db.header.RecSize * (db.recordNum.toNat - 1) } db.buffer,
            isMod := true })) := by
  refine ⟨?_, ?_, ?_⟩
  · intro hA
    have hseek : db.seekRecord (db.recCount + 1) =
        some { db with stream := { db.stream with
          pos := db.header.DataOffset +
            db.header.RecSize * db.header.RecCount } } := by
      unfold XBase.seekRecord Stream.seekTo XBase.recCount
      rw [show (db.header.DataOffset : Int) + (db.header.RecSize : Int) *
            ((db.header.RecCount : Int) + 1 - 1) =
            ((db.header.DataOffset +
              db.header.RecSize * db.header.RecCount : Nat) : Int) by
          push_cast
          ring]
      simp only [Int.toNat_natCast]
      rw [if_neg (by omega)]
      simp only [Option.map_some']
    have hw : wrap64 (db.recordNum + 1) = db.recordNum + 1 := by
      unfold wrap64
      omega
    have hrc2 : (db.header.RecCount + 1) % 2 ^ 32 = db.header.RecCount + 1 :=
      Nat.mod_eq_of_lt (by omega)
    unfold XBase.Save
    rw [h, hA]
    simp only [if_true, hseek, XBase.fileWrite, hw, hrc2, h]
  · intro hA hz
    unfold XBase.Save
    rw [h, hA, hz]
    simp only [Bool.false_eq_true, if_false, if_pos]
  · intro hA hn
    obtain ⟨m, hm⟩ : ∃ m : Nat, db.recordNum = ((m + 1 : Nat) : Int) :=
      ⟨db.recordNum.toNat - 1, by omega⟩
    have hseek : db.seekRecord ((m + 1 : Nat) : Int) =
        some { db with stream := { db.stream with
          pos := db.header.DataOffset + db.header.RecSize * m } } := by
      unfold XBase.seekRecord Stream.seekTo
      rw [show (db.header.DataOffset : Int) + (db.header.RecSize : Int) *
            (((m + 1 : Nat) : Int) - 1) =
            ((db.header.DataOffset + db.header.RecSize * m : Nat) : Int) by
          push_cast
          ring]
      simp only [Int.toNat_natCast]
      rw [if_neg (by omega)]
      simp only [Option.map_some']
    unfold XBase.Save
    rw [h, hA, hm]
    simp only [Bool.false_eq_true, if_false,
      if_neg (show ¬ ((m + 1 : Nat) : Int) = 0 by omega), hseek,
      XBase.fileWrite, Int.toNat_natCast, Nat.add_sub_cancel, h, hm, hA]

/-- Witness for C1: an adding-mode engine with one existing record appends
its two-byte buffer at offset 33 + 2·1 and bumps both counters. -/
theorem C1_witness :
    XBase.Save ⟨⟨3, 0, 0, 0, 1, 33, 2, 0⟩, [], ⟨List.replicate 37 7, 0⟩,
        [42, 43], none, 1, true, false, none, none⟩ =
      (none,
        { (⟨⟨3, 0, 0, 0, 1, 33, 2, 0⟩, [], ⟨List.replicate 37 7, 0⟩,
            [42, 43], none, 1, true, false, none, none⟩ : XBase) with
            stream := Stream.write ⟨List.replicate 37 7, 33 + 2 * 1⟩ [42, 43],
            recordNum := 1 + 1,
            header := ⟨3, 0, 0, 0, 1 + 1, 33, 2, 0⟩,
            isAdd := false, isMod := true }) := by
  have h := (C1_save_modes ⟨⟨3, 0, 0, 0, 1, 33, 2, 0⟩, [], ⟨List.replicate 37 7, 0⟩,
      [42, 43], none, 1, true, false, none, none⟩ rfl (by decide) (by decide)
      (by decide)).1 rfl
  rw [h]

/-- Claim C8: the header arithmetic is self-inverse and matches the layout
invariant: field_count after set_field_count(n) equals n whenever 32·n + 33
fits in 16 bits; and a table written through CreateFile/writeHeader has
data_offset = 32 + 32·field_count + 1 and record_size = 1 + the sum of the
field lengths (the 1 counting the deletion flag). -/
theorem C8_header_arithmetic :
    (∀ (h : Header) (n : Nat), 32 * n + 33 < 65536 →
      (h.setFieldCount n).fieldCount = n) ∧
    (∀ db : XBase, db.fields ≠ [] →
      db.header.DataOffset = 0 → db.header.RecSize = 0 →
      32 * db.fields.length + 33 < 65536 →
      1 + (db.fields.map Field.Len).sum < 65536 →
      (db.CreateFile).1 = none ∧
      (db.CreateFile).2.header.DataOffset = 32 + 32 * db.fields.length + 1 ∧
      (db.CreateFile).2.header.RecSize = 1 + (db.fields.map Field.Len).sum ∧
      (db.CreateFile).2.header.fieldCount = db.fields.length) := by
  have part1 : ∀ (h : Header) (n : Nat), 32 * n + 33 < 65536 →
      (h.setFieldCount n).fieldCount = n := by
    intro h n hn
    unfold Header.setFieldCount Header.fieldCount
    simp only
    rw [Nat.mod_eq_of_lt (by omega),
        show ((n * 32 + 32 + 1 : Nat) : Int) - 32 - 1 = 32 * (n : Int) by
          push_cast
          ring,
        Int.mul_tdiv_cancel_left _ (by norm_num)]
  refine ⟨part1, ?_⟩
  intro db hf hD hR h1 h2
  have hmod2 : (1 + (db.fields.map Field.Len).sum) % 65536 =
      1 + (db.fields.map Field.Len).sum := Nat.mod_eq_of_lt (by omega)
  have hhdr : (db.CreateFile).1 = none ∧ (db.CreateFile).2.header =
      { db.header with
          DataOffset := db.fields.length * 32 + 32 + 1,
          RecSize := 1 + (db.fields.map Field.Len).sum } := by
    unfold XBase.CreateFile XBase.checkFields
    rw [if_neg hf]
    simp only [XBase.writeHeader, XBase.makeBuf, XBase.calcRecSize,
      Header.setFieldCount, XBase.writeFields, hD, hR, eq_self_iff_true,
      if_true, Nat.mod_eq_of_lt (show db.fields.length * 32 + 32 + 1 < 65536
        by omega), hmod2]
    exact ⟨trivial, trivial⟩
  refine ⟨hhdr.1, ?_, ?_, ?_⟩
  · rw [hhdr.2]
    show db.fields.length * 32 + 32 + 1 = 32 + 32 * db.fields.length + 1
    omega
  · rw [hhdr.2]
  · rw [hhdr.2]
    have := part1 db.header db.fields.length (by omega)
    unfold Header.setFieldCount at this
    rw [Nat.mod_eq_of_lt (by omega)] at this
    exact this

/-- Witness for C8: the round trip at n = 5 and CreateFile on a one-field
table (a C field of length 20: data offset 65, record size 21). -/
theorem C8_witness :
    ((Header.setFieldCount ⟨3, 0, 0, 0, 0, 0, 0, 0⟩ 5).fieldCount = 5) ∧
    ((XBase.CreateFile ⟨⟨3, 0, 0, 0, 0, 0, 0, 0⟩, [⟨[78], 67, 0, 20, 0⟩],
        ⟨[], 0⟩, [], none, 0, false, false, none, none⟩).2.header.DataOffset =
      32 + 32 * 1 + 1) := by
  constructor
  · exact (C8_header_arithmetic).1 ⟨3, 0, 0, 0, 0, 0, 0, 0⟩ 5 (by decide)
  · exact ((C8_header_arithmetic).2 ⟨⟨3, 0, 0, 0, 0, 0, 0, 0⟩,
      [⟨[78], 67, 0, 20, 0⟩], ⟨[], 0⟩, [], none, 0, false, false, none, none⟩
      (by decide) rfl rfl (by decide) (by decide)).2.1

/-- Counterexample to claim C7 as stated: on a one-record table, Last();
Next() returns the EOF sentinel but the derived EOF() predicate is false
(the record number stays at the last record, which is not past the count),
and First(); Prev() returns the BOF sentinel with BOF() false. -/
theorem C7_counterexample :
    ((XBase.Last ⟨⟨3, 0, 0, 0, 1, 1, 1, 0⟩, [], ⟨[0, 65], 0⟩, [32], none, 0,
        false, false, none, none⟩).2.Next).1 = some XErr.eof ∧
    ((XBase.Last ⟨⟨3, 0, 0, 0, 1, 1, 1, 0⟩, [], ⟨[0, 65], 0⟩, [32], none, 0,
        false, false, none, none⟩).2.Next).2.EOF = false ∧
    ((XBase.First ⟨⟨3, 0, 0, 0, 1, 1, 1, 0⟩, [], ⟨[0, 65], 0⟩, [32], none, 0,
        false, false, none, none⟩).2.Prev).1 = some XErr.bof ∧
    ((XBase.First ⟨⟨3, 0, 0, 0, 1, 1, 1, 0⟩, [], ⟨[0, 65], 0⟩, [32], none, 0,
        false, false, none, none⟩).2.Prev).2.BOF = false :=
  ⟨rfl, rfl, rfl, rfl⟩

/-- Past-the-end `Next` on an engine standing on the last record returns
the EOF sentinel and leaves the engine unchanged. -/
theorem next_past_end (e : XBase) (m : Nat)
    (hrn : e.recordNum = ((m : Nat) : Int))
    (hrc : e.header.RecCount = m) (hm : m < 2 ^ 32) :
    e.Next = (some XErr.eof, e) := by
  unfold XBase.Next XBase.GoTo
  rw [hrn]
  rw [show wrap64 (((m : Nat) : Int) + 1) = ((m : Nat) : Int) + 1 by
      unfold wrap64
      omega]
  rw [if_neg (by omega), if_pos (by unfold XBase.recCount; rw [hrc]; omega)]

/-- `Prev` on an engine standing on record 1 returns the BOF sentinel and
leaves the engine unchanged. -/
theorem prev_to_zero (e : XBase) (hrn : e.recordNum = 1) :
    e.Prev = (some XErr.bof, e) := by
  unfold XBase.Prev XBase.GoTo
  rw [hrn]
  rw [show wrap64 ((1 : Int) - 1) = 0 by unfold wrap64; decide]
  rw [if_pos (by norm_num)]

/-- The derived EOF() predicate is false while the record number equals the
(nonzero) record count. -/
theorem EOF_eq_false (e : XBase) (m : Nat)
    (hrn : e.recordNum = ((m + 1 : Nat) : Int))
    (hrc : e.header.RecCount = m + 1) :
    e.EOF = false := by
  unfold XBase.EOF XBase.recCount
  rw [hrn, hrc]
  simp only [Bool.or_eq_false_iff, decide_eq_false_iff_not,
    beq_eq_false_iff_ne, ne_eq]
  constructor
  · omega
  · omega

/-- The derived BOF() predicate is false while the record number and the
record count are both nonzero. -/
theorem BOF_eq_false (e : XBase) (m m2 : Nat)
    (hrn : e.recordNum = ((m + 1 : Nat) : Int))
    (hrc : e.header.RecCount = m2 + 1) :
    e.BOF = false := by
  unfold XBase.BOF XBase.recCount
  rw [hrn, hrc]
  simp only [Bool.or_eq_false_iff, decide_eq_false_iff_not,
    beq_eq_false_iff_ne, ne_eq]
  constructor
  · omega
  · omega

/-- Claim C7 amended: for every open nonempty table, Last(); Next() returns
the EOF sentinel while the record number stays on the last record, so the
derived EOF() predicate remains false (it is true only for an empty table);
symmetrically First(); Prev() returns the BOF sentinel, the record number
stays at 1, and BOF() remains false. -/
theorem C7_amended_sentinels (db : XBase)
    (hC : 1 ≤ db.header.RecCount)
    (hC2 : db.header.RecCount < 2 ^ 32)
    (hbuf : db.buffer.length = db.header.RecSize)
    (hR : 1 ≤ db.header.RecSize)
    (hdata : db.header.DataOffset +
      db.header.RecSize * db.header.RecCount ≤ db.stream.data.length) :
    ((db.Last).2.Next).1 = some XErr.eof ∧
    ((db.Last).2.Next).2.recordNum = db.recCount ∧
    ((db.Last).2.Next).2.EOF = false ∧
    ((db.First).2.Prev).1 = some XErr.bof ∧
    ((db.First).2.Prev).2.recordNum = 1 ∧
    ((db.First).2.Prev).2.BOF = false := by
  obtain ⟨k, hk⟩ : ∃ k, db.header.RecCount = k + 1 :=
    ⟨db.header.RecCount - 1, by omega⟩
  have hrc : db.recCount = ((k + 1 : Nat) : Int) := by
    unfold XBase.recCount
    rw [hk]
  have hLast : db.Last = (none,
      { db with
          recordNum := ((k + 1 : Nat) : Int),
          stream := { db.stream with
            pos := db.header.DataOffset + db.header.RecSize * k +
              db.header.RecSize },
          buffer := (db.stream.data.drop
            (db.header.DataOffset + db.header.RecSize * k)).take
              db.header.RecSize }) := by
    unfold XBase.Last
    rw [hrc]
    exact goTo_in_range db k (by rw [hrc]) hbuf hR (by rw [← hk]; exact hdata)
  have hFirst : db.First = (none,
      { db with
          recordNum := ((0 + 1 : Nat) : Int),
          stream := { db.stream with
            pos := db.header.DataOffset + db.header.RecSize * 0 +
              db.header.RecSize },
          buffer := (db.stream.data.drop
            (db.header.DataOffset + db.header.RecSize * 0)).take
              db.header.RecSize }) := by
    unfold XBase.First
    have h1 := goTo_in_range db 0 (by unfold XBase.recCount; omega) hbuf hR
      (by
        have hmul : db.header.RecSize * 1 ≤
            db.header.RecSize * db.header.RecCount :=
          Nat.mul_le_mul_left _ hC
        omega)
    rw [show (1 : Int) = ((0 + 1 : Nat) : Int) by norm_num]
    exact h1
  have hLN : (db.Last).2.Next = (some XErr.eof, (db.Last).2) := by
    rw [hLast]
    exact next_past_end _ (k + 1) rfl hk (by omega)
  have hFP : (db.First).2.Prev = (some XErr.bof, (db.First).2) := by
    rw [hFirst]
    exact prev_to_zero _ (show ((0 + 1 : Nat) : Int) = 1 by norm_num)
  refine ⟨?_, ?_, ?_, ?_, ?_, ?_⟩
  · rw [hLN]
  · rw [hLN, hLast, hrc]
  · rw [hLN, hLast]
    exact EOF_eq_false _ k rfl hk
  · rw [hFP]
  · rw [hFP, hFirst]
    norm_num
  · rw [hFP, hFirst]
    exact BOF_eq_false _ 0 k rfl hk

/-- Witness for the amended C7 on a concrete one-record table. -/
theorem C7_amended_witness :
    ((XBase.Last ⟨⟨3, 0, 0, 0, 1, 3, 1, 0⟩, [], ⟨[0, 0, 0, 66], 0⟩, [32],
        none, 0, false, false, none, none⟩).2.Next).1 = some XErr.eof ∧
    ((XBase.Last ⟨⟨3, 0, 0, 0, 1, 3, 1, 0⟩, [], ⟨[0, 0, 0, 66], 0⟩, [32],
        none, 0, false, false, none, none⟩).2.Next).2.recordNum =
      XBase.recCount ⟨⟨3, 0, 0, 0, 1, 3, 1, 0⟩, [], ⟨[0, 0, 0, 66], 0⟩, [32],
        none, 0, false, false, none, none⟩ ∧
    ((XBase.Last ⟨⟨3, 0, 0, 0, 1, 3, 1, 0⟩, [], ⟨[0, 0, 0, 66], 0⟩, [32],
        none, 0, false, false, none, none⟩).2.Next).2.EOF = false ∧
    ((XBase.First ⟨⟨3, 0, 0, 0, 1, 3, 1, 0⟩, [], ⟨[0, 0, 0, 66], 0⟩, [32],
        none, 0, false, false, none, none⟩).2.Prev).1 = some XErr.bof ∧
    ((XBase.First ⟨⟨3, 0, 0, 0, 1, 3, 1, 0⟩, [], ⟨[0, 0, 0, 66], 0⟩, [32],
        none, 0, false, false, none, none⟩).2.Prev).2.recordNum = 1 ∧
    ((XBase.First ⟨⟨3, 0, 0, 0, 1, 3, 1, 0⟩, [], ⟨[0, 0, 0, 66], 0⟩, [32],
        none, 0, false, false, none, none⟩).2.Prev).2.BOF = false :=
  C7_amended_sentinels ⟨⟨3, 0, 0, 0, 1, 3, 1, 0⟩, [], ⟨[0, 0, 0, 66], 0⟩,
    [32], none, 0, false, false, none, none⟩ (by decide) (by decide) rfl
    (by decide) (by decide)

theorem length_header_write (h : Header) : h.write.length = 32 := by
  simp [Header.write, u16le, u32le]

theorem writeAt_zero (data bs : List Nat) :
    writeAt data 0 bs = bs ++ data.drop bs.length := by
  unfold writeAt
  simp

theorem writeAt_end (data bs : List Nat) :
    writeAt data data.length bs = data ++ bs := by
  unfold writeAt
  simp

/-- Counterexample to claim C6 as stated: on a modified table whose on-disk
length is exactly data_offset + RecCount·record_size + 1 (here 35), Flush
does NOT write 0x1A at the expected end (byte 34 stays 0, nothing is
appended); and on a table one byte short of that (length 34), Flush does
append the terminator — the terminator condition is off by one from the
claim. -/
theorem C6_counterexample :
    (XBase.isMod ⟨⟨3, 0, 0, 0, 1, 33, 1, 0⟩, [], ⟨List.replicate 35 0, 0⟩,
        [32], none, 0, false, true, none, none⟩ = true) ∧
    ((XBase.stream ⟨⟨3, 0, 0, 0, 1, 33, 1, 0⟩, [], ⟨List.replicate 35 0, 0⟩,
        [32], none, 0, false, true, none, none⟩).data.length =
      33 + 1 * 1 + 1) ∧
    ((XBase.Flush ⟨⟨3, 0, 0, 0, 1, 33, 1, 0⟩, [], ⟨List.replicate 35 0, 0⟩,
        [32], none, 0, false, true, none, none⟩
        ⟨2026, 10, 11⟩).stream.data.getD 34 0 = 0) ∧
    ((XBase.Flush ⟨⟨3, 0, 0, 0, 1, 33, 1, 0⟩, [], ⟨List.replicate 35 0, 0⟩,
        [32], none, 0, false, true, none, none⟩
        ⟨2026, 10, 11⟩).stream.data.length = 35) ∧
    ((XBase.Flush ⟨⟨3, 0, 0, 0, 1, 33, 1, 0⟩, [], ⟨List.replicate 34 0, 0⟩,
        [32], none, 0, false, true, none, none⟩
        ⟨2026, 10, 11⟩).stream.data.getD 34 0 = 26) :=
  ⟨rfl, rfl, rfl, rfl, rfl⟩

/-- Claim C6 amended: when modified, Flush stamps the modification date,
rewrites the 32-byte header at offset 0, and appends the file terminator
0x1A exactly when the on-disk length equals data_offset +
RecCount·record_size (one byte short of the terminated length); for any
other length, the terminator check trusts the outside writer and the bytes
past the header are left unchanged.  Either way the modified flag is
cleared; when not modified, Flush changes nothing. -/
theorem C6_amended_flush (db : XBase) (now : GoDate)
    (hD : db.header.DataOffset ≠ 0) (hR : db.header.RecSize ≠ 0)
    (hlen : 32 ≤ db.stream.data.length) :
    (db.isMod = true →
      (db.stream.data.length =
          db.header.DataOffset + db.header.RecCount * db.header.RecSize →
        db.Flush now =
          { db with
              header := db.header.setModDate now,
              stream := ⟨((db.header.setModDate now).write ++
                  db.stream.data.drop 32) ++ [26],
                db.stream.data.length + 1⟩,
              isMod := false }) ∧
      (db.stream.data.length ≠
          db.header.DataOffset + db.header.RecCount * db.header.RecSize →
        db.Flush now =
          { db with
              header := db.header.setModDate now,
              stream := ⟨(db.header.setModDate now).write ++
                db.stream.data.drop 32, 32⟩,
              isMod := false })) ∧
    (db.isMod = false → db.Flush now = db) := by
  have hwlen : (Header.write (db.header.setModDate now)).length = 32 :=
    length_header_write _
  have hd1 : writeAt db.stream.data 0 (db.header.setModDate now).write =
      (db.header.setModDate now).write ++ db.stream.data.drop 32 := by
    rw [writeAt_zero _ _, hwlen]
  have hlen1 : ((db.header.setModDate now).write ++
      db.stream.data.drop 32).length = db.stream.data.length := by
    rw [List.length_append, hwlen, List.length_drop]
    omega
  have hD2 : (db.header.setModDate now).DataOffset ≠ 0 := by
    simpa [Header.setModDate] using hD
  have hR2 : (db.header.setModDate now).RecSize ≠ 0 := by
    simpa [Header.setModDate] using hR
  have hwh : XBase.writeHeader { db with header := db.header.setModDate now } =
      { db with
          header := db.header.setModDate now,
          stream := ⟨(db.header.setModDate now).write ++
            db.stream.data.drop 32, 32⟩ } := by
    simp only [XBase.writeHeader, if_neg hD2, if_neg hR2, Stream.write, hd1,
      hwlen, Nat.zero_add]
  have hsdD : (db.header.setModDate now).DataOffset = db.header.DataOffset :=
    rfl
  have hsdR : (db.header.setModDate now).RecSize = db.header.RecSize := rfl
  have hsdC : (db.header.setModDate now).RecCount = db.header.RecCount := rfl
  refine ⟨?_, ?_⟩
  · intro hM
    unfold XBase.Flush
    rw [if_pos hM]
    simp only [hwh]
    constructor
    · intro hEq
      unfold XBase.writeFileEnd
      simp only [XBase.RecCount, XBase.recCount, hsdD, hsdR, hsdC, hlen1]
      rw [if_neg (by omega)]
      simp only [Stream.seekEnd, Stream.write]
      rw [writeAt_end]
      simp [hlen1]
    · intro hNe
      unfold XBase.writeFileEnd
      simp only [XBase.RecCount, XBase.recCount, hsdD, hsdR, hsdC, hlen1]
      rw [if_pos (by omega)]
  · intro hM
    unfold XBase.Flush
    rw [hM]
    simp only [Bool.false_eq_true, if_false]

/-- Witness for the amended C6 at the length-34 table (one byte short of
the terminated size): the terminator is appended as the amended claim
says. -/
theorem C6_amended_witness :
    XBase.Flush ⟨⟨3, 0, 0, 0, 1, 33, 1, 0⟩, [], ⟨List.replicate 34 0, 0⟩,
        [32], none, 0, false, true, none, none⟩ ⟨2026, 10, 11⟩ =
      { (⟨⟨3, 0, 0, 0, 1, 33, 1, 0⟩, [], ⟨List.replicate 34 0, 0⟩,
          [32], none, 0, false, true, none, none⟩ : XBase) with
          header := Header.setModDate ⟨3, 0, 0, 0, 1, 33, 1, 0⟩ ⟨2026, 10, 11⟩,
          stream := ⟨((Header.setModDate ⟨3, 0, 0, 0, 1, 33, 1, 0⟩
              ⟨2026, 10, 11⟩).write ++
            (List.replicate 34 0).drop 32) ++ [26], 34 + 1⟩,
          isMod := false } := by
  have h := ((C6_amended_flush ⟨⟨3, 0, 0, 0, 1, 33, 1, 0⟩, [],
      ⟨List.replicate 34 0, 0⟩, [32], none, 0, false, true, none, none⟩
      ⟨2026, 10, 11⟩ (by decide) (by decide) (by decide)).1 rfl).1 (by decide)
  rw [h]
  rfl

end XBaseSpec
